import Mathlib

/-!
# tuw_teleop: gamepad2twist and tuw_gui2iws_node

A shallow embedding of `src/tuw_gamepad/src/gamepad2twist.cpp` (class `Joy2Twist`) and of
`src/tuw_gui2iws/src/tuw_gui2iws_node.cpp` (class `Gui2IwsNode`).

Conventions of the embedding.

* `double` and `float` values are rationals: every finite floating-point number is one.
  Products, sums, comparisons and quotients by a divisor that is not zero are the exact ones
  of `ℚ`; rounding and overflow are not modelled.
* A quotient whose divisor can be zero (the three of the Ackermann branch of `send_cmd_vel`)
  is a `Double`, a rational or `+inf`, `-inf` or NaN, computed by `fdiv`; the rational 0
  stands for `+0.0`, the negative zero is not modelled.
* The `<math.h>` functions `sin`, `sqrt`, `atan2` and the constant `M_PI` are not rational
  functions. They are the fields of a parameter `Libm`; theorems hold for every `Libm`.
* `int` parameters are `Int`; the cast `(unsigned int) i` is `i % 2 ^ 32`.
* `ros::Time` and `ros::Duration` are rationals, in seconds; `ros::Time::now()` is an
  argument `now` of the callback that reads it.
* `operator[]` of a `std::vector` with an index outside the vector reads whatever memory
  holds there. That memory is the parameter `Mem`; theorems hold for every `Mem`.
* Logging (`ROS_INFO`, `ROS_ERROR`, `ROS_DEBUG`) has no effect on the state and is left out.
-/

/-- The `<math.h>` functions and constant the two nodes use. -/
structure Libm where
  sin : ℚ → ℚ
  sqrt : ℚ → ℚ
  atan2 : ℚ → ℚ → ℚ
  M_PI : ℚ

/-- A value of type `double` where a division by zero can have produced it: a finite value,
which is a rational, or `+inf`, `-inf` or NaN. -/
inductive Double where
  | finite (q : ℚ)
  | inf (negative : Bool)
  | nan

/-- The quotient `x / y` of two finite `double`s. For `y` zero (`+0.0`) it is NaN when `x`
is zero and the infinity of the sign of `x` otherwise. -/
def fdiv (x y : ℚ) : Double :=
  if y = 0 then (if x = 0 then Double.nan else Double.inf (decide (x < 0)))
  else Double.finite (x / y)

/-- The quotient `d / y` of a `double` by a finite one: an infinity keeps its sign for
`y >= 0` and changes it for `y < 0`, NaN stays NaN. -/
def Double.divBy (d : Double) (y : ℚ) : Double :=
  match d with
  | Double.finite x => fdiv x y
  | Double.inf negative => Double.inf (negative != decide (y < 0))
  | Double.nan => Double.nan

/-- The comparison `d > q` of a `double` with a finite one; false for NaN. -/
def Double.gt (d : Double) (q : ℚ) : Bool :=
  match d with
  | Double.finite x => decide (x > q)
  | Double.inf negative => !negative
  | Double.nan => false

/-- The comparison `d < q` of a `double` with a finite one; false for NaN. -/
def Double.lt (d : Double) (q : ℚ) : Bool :=
  match d with
  | Double.finite x => decide (x < q)
  | Double.inf negative => negative
  | Double.nan => false

/-- The function `sin` on a `double`: NaN at the infinities and at NaN. -/
def Libm.sinD (m : Libm) (d : Double) : Double :=
  match d with
  | Double.finite x => Double.finite (m.sin x)
  | Double.inf _ => Double.nan
  | Double.nan => Double.nan

namespace Joy2Twist

/-- The message type `geometry_msgs::Twist`. -/
structure Twist where
  linear_x : ℚ
  linear_y : ℚ
  linear_z : ℚ
  angular_x : ℚ
  angular_y : ℚ
  angular_z : ℚ

/-- The message type `sensor_msgs::Joy`: `float32[] axes`, `int32[] buttons`. -/
structure Joy where
  axes : List ℚ
  buttons : List Int

/-- What a read outside `axes` or `buttons` yields, by the (signed) index used. -/
structure Mem where
  axes : Int → ℚ
  buttons : Int → Int

/-- The fields of `Joy2Twist` that `init` sets from the parameter server and nothing changes
afterwards. -/
structure Config where
  publisher_type : Int
  debug : Bool
  scale : ℚ
  axis_vx : Int
  axis_vy : Int
  axis_vw : Int
  axis_vx_discrete : Int
  axis_vy_discrete : Int
  axis_vw_discrete : Int
  max_vx : ℚ
  max_vy : ℚ
  max_vw : ℚ
  deadman_button : Int
  scale_button : Int
  wheel_base : ℚ
  wheel_diameter : ℚ
  steering_width : ℚ
  steering_angle : ℚ
  joy_msg_timeout_ : ℚ

/-- The fields of `Joy2Twist` the callbacks change. `cmd_iws_revolute0` and
`cmd_iws_steering0` are `cmd_iws_.revolute[0]` and `cmd_iws_.steering[0]`. -/
structure State where
  cmd_ : Twist
  cmd_passthrough_ : Twist
  cmd_iws_revolute0 : Double
  cmd_iws_steering0 : Double
  req_vx : ℚ
  req_vy : ℚ
  req_vw : ℚ
  req_scale : ℚ
  deadman_ : Bool
  last_recieved_joy_message_time_ : ℚ

/-- What `pub_cmd_.publish` is given: `cmd_` or the two written entries of `cmd_iws_`. -/
inductive Published where
  | twist (cmd : Twist)
  | iws (revolute0 steering0 : Double)

/-- The value of an `int` is in the range of a 32-bit `int`. -/
def isInt (i : Int) : Prop := -2147483648 ≤ i ∧ i < 2147483648

instance (i : Int) : Decidable (isInt i) := by unfold isInt; infer_instance

/-- The eight index fields of the configuration hold values of type `int`. -/
def Config.wf (c : Config) : Prop :=
  isInt c.scale_button ∧ isInt c.deadman_button ∧
  isInt c.axis_vx ∧ isInt c.axis_vy ∧ isInt c.axis_vw ∧
  isInt c.axis_vx_discrete ∧ isInt c.axis_vy_discrete ∧ isInt c.axis_vw_discrete

instance (c : Config) : Decidable c.wf := by unfold Config.wf; infer_instance

/-- The cast `( unsigned int ) i`. -/
def toUnsigned (i : Int) : Nat := (i % 4294967296).toNat

/-- The field `joy_msg_timeout_` as `init` computes it from the parameter `joy_msg_timeout`
(lines 94-102). -/
def init_joy_msg_timeout (joy_msg_timeout : ℚ) : ℚ :=
  if joy_msg_timeout ≤ 0 then 9999999 else joy_msg_timeout

/-- The configuration `init` builds when the parameter server holds no parameter
(lines 67-102). -/
def defaultConfig : Config where
  publisher_type := 0
  debug := false
  scale := 2
  axis_vx := 1
  axis_vy := -1
  axis_vw := 3
  axis_vx_discrete := 7
  axis_vy_discrete := -1
  axis_vw_discrete := 6
  max_vx := 1
  max_vy := 0
  max_vw := 1
  deadman_button := 5
  scale_button := 4
  wheel_base := 0
  wheel_diameter := 0
  steering_width := 0
  steering_angle := 0
  joy_msg_timeout_ := init_joy_msg_timeout (-1)

/-- The read `joy_msg->axes[i]` with an `int` index `i`. -/
def axesAt (mem : Mem) (joy : Joy) (i : Int) : ℚ :=
  if 0 ≤ i then (joy.axes[i.toNat]?).getD (mem.axes i) else mem.axes i

/-- The read `joy_msg->buttons[i]` with an `int` index `i`. -/
def buttonsAt (mem : Mem) (joy : Joy) (i : Int) : Int :=
  if 0 ≤ i then (joy.buttons[i.toNat]?).getD (mem.buttons i) else mem.buttons i

/-- The method `Joy2Twist::callback_cmd_passthrough` (lines 145-149). -/
def callback_cmd_passthrough (pass_msg : Twist) (s : State) : State :=
  { s with cmd_passthrough_ := pass_msg }

/-- The method `Joy2Twist::buttonsOK` (lines 151-186). -/
def buttonsOK (c : Config) (joy : Joy) : Bool :=
  if 0 ≤ c.scale_button ∧ joy.buttons.length ≤ toUnsigned c.scale_button then false
  else if 0 ≤ c.deadman_button ∧ joy.buttons.length ≤ toUnsigned c.deadman_button then false
  else if 0 ≤ c.axis_vx ∧ joy.axes.length ≤ toUnsigned c.axis_vx then false
  else if 0 ≤ c.axis_vy ∧ joy.axes.length ≤ toUnsigned c.axis_vy then false
  else if 0 ≤ c.axis_vw ∧ joy.axes.length ≤ toUnsigned c.axis_vw then false
  else if 0 ≤ c.axis_vx_discrete ∧ joy.axes.length ≤ toUnsigned c.axis_vx_discrete then false
  else if 0 ≤ c.axis_vy_discrete ∧ joy.axes.length ≤ toUnsigned c.axis_vy_discrete then false
  else if 0 ≤ c.axis_vw_discrete ∧ joy.axes.length ≤ toUnsigned c.axis_vw_discrete then false
  else true

/-- The method `Joy2Twist::joy_cb` (lines 188-267), `now` being what `ros::Time::now()`
returns. The blocks under `if(debug)` only log. -/
def joy_cb (c : Config) (mem : Mem) (now : ℚ) (joy : Joy) (s : State) : State :=
  let s := { s with deadman_ := buttonsAt mem joy c.deadman_button != 0 }
  if !s.deadman_ then s else
  let s :=
    if 0 ≤ c.scale_button && buttonsAt mem joy c.scale_button != 0
    then { s with req_scale := c.scale }
    else { s with req_scale := 1 }
  let s := { s with last_recieved_joy_message_time_ := now }
  let s := { s with req_vx := 0, req_vy := 0, req_vw := 0 }
  if !buttonsOK c joy then s else
  let s := if 0 ≤ c.axis_vx
    then { s with req_vx := axesAt mem joy c.axis_vx * c.max_vx * s.req_scale } else s
  let s := if 0 ≤ c.axis_vy
    then { s with req_vy := axesAt mem joy c.axis_vy * c.max_vy * s.req_scale } else s
  let s := if 0 ≤ c.axis_vw
    then { s with req_vw := axesAt mem joy c.axis_vw * c.max_vw * s.req_scale } else s
  let s := if |axesAt mem joy c.axis_vx_discrete| > 0.9
    then (if 0 ≤ c.axis_vx_discrete
      then { s with req_vx := axesAt mem joy c.axis_vx_discrete * c.max_vx * s.req_scale }
      else s)
    else s
  let s := if |axesAt mem joy c.axis_vy_discrete| > 0.9
    then (if 0 ≤ c.axis_vy_discrete
      then { s with req_vy := axesAt mem joy c.axis_vy_discrete * c.max_vy * s.req_scale }
      else s)
    else s
  let s := if |axesAt mem joy c.axis_vw_discrete| > 0.9
    then (if 0 ≤ c.axis_vw_discrete
      then { s with req_vw := axesAt mem joy c.axis_vw_discrete * c.max_vw * s.req_scale }
      else s)
    else s
  s

/-- The method `Joy2Twist::send_cmd_vel` (lines 269-303), `now` being what
`ros::Time::now()` returns: the state after the call and what was published. The `switch`
has no `default`, so any other `publisher_type` publishes nothing. The three quotients of
the Ackermann branch (lines 284, 287 and 292) can have a zero divisor and are `Double`s. -/
def send_cmd_vel (c : Config) (m : Libm) (now : ℚ) (s : State) : State × Option Published :=
  let s :=
    if !s.deadman_ || s.last_recieved_joy_message_time_ + c.joy_msg_timeout_ < now
    then { s with req_vx := s.cmd_passthrough_.linear_x,
                  req_vy := s.cmd_passthrough_.linear_y,
                  req_vw := s.cmd_passthrough_.angular_z }
    else s
  if c.publisher_type = 0 then
    let cmd : Twist :=
      { s.cmd_ with linear_x := s.req_vx, linear_y := s.req_vy, angular_z := s.req_vw }
    ({ s with cmd_ := cmd }, some (Published.twist cmd))
  else if c.publisher_type = 1 then
    let revolute0 := fdiv s.req_vx (c.wheel_diameter / 2)
    let steering := fdiv (s.req_vw * m.M_PI) (2 * s.req_scale)
    let steering :=
      if steering.gt c.steering_angle then Double.finite c.steering_angle
      else if steering.lt (-c.steering_angle) then Double.finite (-c.steering_angle)
      else steering
    let wheel_angle := (m.sinD steering).divBy c.wheel_base
    ({ s with cmd_iws_revolute0 := revolute0, cmd_iws_steering0 := wheel_angle },
      some (Published.iws revolute0 wheel_angle))
  else (s, none)

end Joy2Twist

namespace Gui2IwsNode

/-- Modelled from the spec: the header `tuw_gui2iws/tuw_gui2iws_node.h` and the classes
`Gui2Iws` and `IwsSpSystem` behind it are not among the sources. The body-kinematic state is
the three entries the spec names, longitudinal speed, instantaneous curvature and
heading offset, which the code addresses as `state[asInt(VRP::V)]`, `state[asInt(VRP::RHO)]`
and `state[asInt(VRP::PHI)]`. -/
structure BodyState where
  v : ℚ
  rho : ℚ
  phi : ℚ

/-- The fields of the message `nav_msgs::Odometry` that `callbackOdometry` reads. -/
structure Odometry where
  linear_x : ℚ
  linear_y : ℚ
  angular_z : ℚ
  orientation_x : ℚ
  orientation_y : ℚ
  orientation_z : ℚ
  orientation_w : ℚ

/-- The fields of `Gui2IwsNode` that `callbackOdometry` and `publishJntsCmds` use. -/
structure State where
  bodyStateNow_ : BodyState
  bodyStateTarget_ : BodyState
  new_trajectory : Bool

/-- The message type `tuw_gazebo_msgs::IwsCmd_VRAT`, `stamp` being `header.stamp`. -/
structure IwsCmd_VRAT where
  stamp : ℚ
  deltaT : ℚ
  v : ℚ
  rho : ℚ
  phi : ℚ

/-- The method `Gui2IwsNode::callbackOdometry` (lines 109-132). The roll, pitch and yaw of
lines 114-119 are computed from the orientation and never used. -/
def callbackOdometry (m : Libm) (odom_ : Odometry) (s : State) : State :=
  let vx := odom_.linear_x
  let vy := odom_.linear_y
  let w := odom_.angular_z
  let vNorm := m.sqrt (vx * vx + vy * vy)
  if |vNorm| < 0.1 then s
  else
    let s := { s with bodyStateNow_ := { s.bodyStateNow_ with v := vNorm } }
    let s := { s with bodyStateNow_ := { s.bodyStateNow_ with rho := -w / vNorm } }
    let s := { s with bodyStateNow_ :=
      { s.bodyStateNow_ with phi := m.atan2 vy vx - m.M_PI / 2 } }
    s

/-- The method `Gui2IwsNode::publishJntsCmds` (lines 134-147): the state after the call and
the message published, if any. `now` is what `ros::Time::now()` returns.
Modelled from the spec: `computeBodyStateTargetDeltaT` is a method of the missing class
`Gui2Iws`; it is a parameter, a function that computes the target time delta from the state
and changes nothing. -/
def publishJntsCmds (computeBodyStateTargetDeltaT : State → ℚ) (now : ℚ) (s : State) :
    State × Option IwsCmd_VRAT :=
  if !s.new_trajectory then (s, none) else
  let s := { s with new_trajectory := false }
  let jnts_cmd : IwsCmd_VRAT :=
    { stamp := now
      deltaT := computeBodyStateTargetDeltaT s
      v := s.bodyStateTarget_.v
      rho := s.bodyStateTarget_.rho
      phi := s.bodyStateTarget_.phi }
  (s, some jnts_cmd)

/-- Consecutive calls of `publishJntsCmds`, one at each of the given times, with nothing in
between: the state after the last call and the messages published, in order. -/
def publishJntsCmdsAt (computeBodyStateTargetDeltaT : State → ℚ) :
    List ℚ → State → State × List IwsCmd_VRAT
  | [], s => (s, [])
  | now :: rest, s =>
    let r := publishJntsCmds computeBodyStateTargetDeltaT now s
    let r2 := publishJntsCmdsAt computeBodyStateTargetDeltaT rest r.1
    (r2.1, r.2.toList ++ r2.2)

end Gui2IwsNode

namespace Joy2Twist

/-- The index `i` is non-negative and not smaller than the length `n` of its array. -/
def exceeds (n : Nat) (i : Int) : Prop := 0 ≤ i ∧ (n : Int) ≤ i

instance (n : Nat) (i : Int) : Decidable (exceeds n i) := by unfold exceeds; infer_instance

/-- The index `i` names an element of an array of length `n`. -/
def inRange (n : Nat) (i : Int) : Prop := 0 ≤ i ∧ i < (n : Int)

instance (n : Nat) (i : Int) : Decidable (inRange n i) := by unfold inRange; infer_instance

/-- The button of index `i` exists in the snapshot and is pressed (its entry is not 0). -/
def pressed (joy : Joy) (i : Int) : Prop :=
  inRange joy.buttons.length i ∧ joy.buttons.getD i.toNat 0 ≠ 0

instance (joy : Joy) (i : Int) : Decidable (pressed joy i) := by
  unfold pressed; infer_instance

/-- The button of index `i` exists in the snapshot and is not pressed (its entry is 0). -/
def released (joy : Joy) (i : Int) : Prop :=
  inRange joy.buttons.length i ∧ joy.buttons.getD i.toNat 0 = 0

instance (joy : Joy) (i : Int) : Decidable (released joy i) := by
  unfold released; infer_instance

/-- The reading of the axis of index `i`, for an index that names an axis of the snapshot. -/
def reading (joy : Joy) (i : Int) : ℚ := joy.axes.getD i.toNat 0

/-- The discrete override of index `i` fires: the index is configured (non-negative) and
the absolute value of its reading is greater than 0.9. -/
def fires (joy : Joy) (i : Int) : Prop := 0 ≤ i ∧ |reading joy i| > 0.9

instance (joy : Joy) (i : Int) : Decidable (fires joy i) := by unfold fires; infer_instance

/-- The result of the continuous axis of index `i`: reading times maximum times scale for a
configured index, 0 for a negative one. -/
def continuous (joy : Joy) (i : Int) (max scale : ℚ) : ℚ :=
  if 0 ≤ i then reading joy i * max * scale else 0

/-- One requested scalar after lines 228-253, in terms of the reads performed. -/
def scalarOf (mem : Mem) (joy : Joy) (axis discrete : Int) (max scale : ℚ) : ℚ :=
  if |axesAt mem joy discrete| > 0.9 ∧ 0 ≤ discrete
  then axesAt mem joy discrete * max * scale
  else if 0 ≤ axis then axesAt mem joy axis * max * scale else 0

/-- The tick falls back: the dead-man is not held, or the Liveness Clock plus the timeout is
earlier than `now`. -/
def fallback (c : Config) (now : ℚ) (s : State) : Prop :=
  s.deadman_ = false ∨ s.last_recieved_joy_message_time_ + c.joy_msg_timeout_ < now

instance (c : Config) (now : ℚ) (s : State) : Decidable (fallback c now s) := by
  unfold fallback; infer_instance

/-- The Passthrough Command triple. -/
def passthroughTriple (s : State) : ℚ × ℚ × ℚ :=
  (s.cmd_passthrough_.linear_x, s.cmd_passthrough_.linear_y, s.cmd_passthrough_.angular_z)

/-- The stored Requested Command triple. -/
def requestedTriple (s : State) : ℚ × ℚ × ℚ := (s.req_vx, s.req_vy, s.req_vw)

/-- The triple a tick takes its output from: forward, lateral and angular scalar. -/
def sourceTriple (c : Config) (now : ℚ) (s : State) : ℚ × ℚ × ℚ :=
  if fallback c now s then passthroughTriple s else requestedTriple s

/-- The triple (linear.x, linear.y, angular.z) of a `Twist`. -/
def Twist.triple (t : Twist) : ℚ × ℚ × ℚ := (t.linear_x, t.linear_y, t.angular_z)

/-- A gamepad snapshot with 4 buttons and 8 axes, nothing pressed. -/
def fourButtons : Joy := ⟨[0, 0, 0, 0, 0, 0, 0, 0], [0, 0, 0, 0]⟩

/-- A gamepad snapshot with 8 axes and 11 buttons, nothing pressed. -/
def idleJoy : Joy := ⟨[0, 0, 0, 0, 0, 0, 0, 0], [0, 0, 0, 0, 0, 0, 0, 0, 0, 0, 0]⟩

/-- A gamepad snapshot with 8 axes and 11 buttons: buttons 4 and 5 pressed, axis 1 at 0.5. -/
def scenarioJoy : Joy := ⟨[0, 0.5, 0, 0, 0, 0, 0, 0], [0, 0, 0, 0, 1, 1, 0, 0, 0, 0, 0]⟩

/-- A gamepad snapshot with 8 axes and 11 buttons: button 5 pressed, axis 1 at 0.5 and the
discrete axis 7 at -1. -/
def discreteJoy : Joy := ⟨[0, 0.5, 0, 0, 0, 0, 0, -1], [0, 0, 0, 0, 0, 1, 0, 0, 0, 0, 0]⟩

/-- A snapshot with button 5 pressed and only 2 axes. -/
def twoAxes : Joy := ⟨[0.5, 0.5], [0, 0, 0, 0, 0, 1, 0, 0, 0, 0, 0]⟩

/-- Memory that holds 7 next to the axes and 1 next to the buttons. -/
def junk : Mem := ⟨fun _ => 7, fun _ => 1⟩

/-- The `Twist` with all six entries 0. -/
def zeroTwist : Twist := ⟨0, 0, 0, 0, 0, 0⟩

/-- A state with Requested Command (1/2, 0, 1/4), scale 1, the dead-man held since time 0
and a zero Passthrough Command. -/
def movingState : State where
  cmd_ := zeroTwist
  cmd_passthrough_ := zeroTwist
  cmd_iws_revolute0 := Double.finite 0
  cmd_iws_steering0 := Double.finite 0
  req_vx := 1 / 2
  req_vy := 0
  req_vw := 1 / 4
  req_scale := 1
  deadman_ := true
  last_recieved_joy_message_time_ := 0

end Joy2Twist

/-- The value of the `double` constant `M_PI`, 0x400921FB54442D18. -/
def M_PI_double : ℚ := 884279719003555 / 281474976710656

/-- A rational `sqrt`: the integer square root of numerator times denominator over the
denominator, exact on squares of rationals. -/
def sqrtQ (x : ℚ) : ℚ := if x ≤ 0 then 0 else (Nat.sqrt (x.num.toNat * x.den) : ℚ) / x.den

/-- A rational `atan2`, exact on the axes and the diagonals. -/
def atan2Q (y x : ℚ) : ℚ :=
  if x = 0 ∧ y = 0 then 0
  else if 0 ≤ x then M_PI_double / 2 * (y / (|x| + |y|))
  else if 0 ≤ y then M_PI_double / 2 * (2 - y / (|x| + |y|))
  else M_PI_double / 2 * (-2 - y / (|x| + |y|))

/-- A rational `Libm`, to evaluate the definitions at concrete inputs: `sin` is its Taylor
polynomial of degree 7. -/
def libmQ : Libm where
  sin := fun x => x - x ^ 3 / 6 + x ^ 5 / 120 - x ^ 7 / 5040
  sqrt := sqrtQ
  atan2 := atan2Q
  M_PI := M_PI_double

namespace Gui2IwsNode

/-- A state with the flag set, target body state (1, 1/2, 0) and current body state
(0, 0, 0). -/
def armedState : State := ⟨⟨0, 0, 0⟩, ⟨1, 1 / 2, 0⟩, true⟩

/-- An odometry message with velocity (0, 1) and angular rate 1/2. -/
def sidewaysOdometry : Odometry := ⟨0, 1, 1 / 2, 0, 0, 0, 1⟩

end Gui2IwsNode

namespace Joy2Twist

/-- A configuration in Ackermann mode with `steering_angle` 1, `wheel_base` 1/2 and
`wheel_diameter` 1/5. -/
def ackermannConfig : Config :=
  { defaultConfig with
    publisher_type := 1, steering_angle := 1, wheel_base := 1 / 2, wheel_diameter := 1 / 5 }

/-- A state with the dead-man held since time 0, Requested Command
(1/2, 0, 4 / M_PI) and scale 1: the raw steering angle is 2. -/
def steeringState : State := { movingState with req_vw := 4 / M_PI_double }

/-- The Ackermann configuration with a configured `scale` of 0. -/
def zeroScaleConfig : Config := { ackermannConfig with scale := 0 }

/-- A state with the dead-man held since time 0, Requested Command (0, 0, 0) and scale 0:
the state `joy_cb` leaves under `zeroScaleConfig` after a snapshot with the scale button
pressed. -/
def zeroScaleState : State :=
  { movingState with req_vx := 0, req_vy := 0, req_vw := 0, req_scale := 0 }

/-- The raw steering angle of line 287: angular scalar * M_PI / (2 * req_scale). -/
def rawAngle (c : Config) (m : Libm) (now : ℚ) (s : State) : Double :=
  fdiv ((sourceTriple c now s).2.2 * m.M_PI) (2 * s.req_scale)

/-- One element read `joy_msg->buttons[i]` or `joy_msg->axes[i]`, by its `int` index. -/
inductive Read where
  | buttons (i : Int)
  | axes (i : Int)
  deriving DecidableEq

/-- The reads of `joy_msg->buttons` and `joy_msg->axes` that `joy_cb` performs (lines
188-253) with `debug` off, in program order. Line 194 reads `buttons[scale_button]` only
after `scale_button >= 0`, and lines 228-230 read `axes[axis_v*]` only after
`axis_v* >= 0`; line 190 reads `buttons[deadman_button]` with no test before it, and lines
245, 248 and 251 read `axes[axis_v*_discrete]` inside `fabs`, before the test
`axis_v*_discrete >= 0` of lines 246, 249 and 252. `buttonsOK` reads sizes only. -/
def joy_cb_reads (c : Config) (mem : Mem) (joy : Joy) : List Read :=
  [Read.buttons c.deadman_button] ++
  if !(buttonsAt mem joy c.deadman_button != 0) then [] else
  (if 0 ≤ c.scale_button then [Read.buttons c.scale_button] else []) ++
  if !buttonsOK c joy then [] else
  (if 0 ≤ c.axis_vx then [Read.axes c.axis_vx] else []) ++
  (if 0 ≤ c.axis_vy then [Read.axes c.axis_vy] else []) ++
  (if 0 ≤ c.axis_vw then [Read.axes c.axis_vw] else []) ++
  [Read.axes c.axis_vx_discrete] ++
  (if |axesAt mem joy c.axis_vx_discrete| > 0.9
    then (if 0 ≤ c.axis_vx_discrete then [Read.axes c.axis_vx_discrete] else [])
    else []) ++
  [Read.axes c.axis_vy_discrete] ++
  (if |axesAt mem joy c.axis_vy_discrete| > 0.9
    then (if 0 ≤ c.axis_vy_discrete then [Read.axes c.axis_vy_discrete] else [])
    else []) ++
  [Read.axes c.axis_vw_discrete] ++
  (if |axesAt mem joy c.axis_vw_discrete| > 0.9
    then (if 0 ≤ c.axis_vw_discrete then [Read.axes c.axis_vw_discrete] else [])
    else [])

/-- The read uses an index `i` with `0 <= i` and `i` below the length of its array. -/
def Read.inBounds (joy : Joy) : Read → Prop
  | Read.buttons i => inRange joy.buttons.length i
  | Read.axes i => inRange joy.axes.length i

instance (joy : Joy) (r : Read) : Decidable (r.inBounds joy) := by
  cases r <;> (unfold Read.inBounds; infer_instance)

/-- The default configuration with the dead-man button disabled. -/
def noDeadmanConfig : Config := { defaultConfig with deadman_button := -1 }

/-- The guard of one `if` of `buttonsOK`, with the cast removed. -/
theorem guard_iff {i : Int} (n : Nat) (hi : isInt i) :
    (0 ≤ i ∧ n ≤ toUnsigned i) ↔ exceeds n i := by
  unfold isInt at hi
  unfold toUnsigned exceeds
  omega

/-- Which snapshots `buttonsOK` rejects. -/
theorem buttonsOK_eq_false (c : Config) (joy : Joy) (hc : c.wf) :
    buttonsOK c joy = false ↔
      (exceeds joy.buttons.length c.scale_button ∨
       exceeds joy.buttons.length c.deadman_button ∨
       exceeds joy.axes.length c.axis_vx ∨
       exceeds joy.axes.length c.axis_vy ∨
       exceeds joy.axes.length c.axis_vw ∨
       exceeds joy.axes.length c.axis_vx_discrete ∨
       exceeds joy.axes.length c.axis_vy_discrete ∨
       exceeds joy.axes.length c.axis_vw_discrete) := by
  obtain ⟨h1, h2, h3, h4, h5, h6, h7, h8⟩ := hc
  unfold buttonsOK
  simp only [guard_iff _ h1, guard_iff _ h2, guard_iff _ h3, guard_iff _ h4,
    guard_iff _ h5, guard_iff _ h6, guard_iff _ h7, guard_iff _ h8]
  split_ifs <;> simp_all

/-- An index is negative, or names an element, or exceeds the array. -/
theorem not_exceeds_iff (n : Nat) (i : Int) : ¬ exceeds n i ↔ (0 ≤ i → inRange n i) := by
  unfold exceeds inRange
  omega

/-- In a snapshot `buttonsOK` accepts, every configured index names an element. -/
theorem buttonsOK_eq_true (c : Config) (joy : Joy) (hc : c.wf) (h : buttonsOK c joy = true) :
    (0 ≤ c.scale_button → inRange joy.buttons.length c.scale_button) ∧
    (0 ≤ c.deadman_button → inRange joy.buttons.length c.deadman_button) ∧
    (0 ≤ c.axis_vx → inRange joy.axes.length c.axis_vx) ∧
    (0 ≤ c.axis_vy → inRange joy.axes.length c.axis_vy) ∧
    (0 ≤ c.axis_vw → inRange joy.axes.length c.axis_vw) ∧
    (0 ≤ c.axis_vx_discrete → inRange joy.axes.length c.axis_vx_discrete) ∧
    (0 ≤ c.axis_vy_discrete → inRange joy.axes.length c.axis_vy_discrete) ∧
    (0 ≤ c.axis_vw_discrete → inRange joy.axes.length c.axis_vw_discrete) := by
  have hne : ¬ buttonsOK c joy = false := by simp [h]
  rw [buttonsOK_eq_false c joy hc] at hne
  simp only [not_or, not_exceeds_iff] at hne
  exact hne

/-- A read of `axes` at an index that names an element yields that element. -/
theorem axesAt_inRange (mem : Mem) (joy : Joy) {i : Int} (h : inRange joy.axes.length i) :
    axesAt mem joy i = reading joy i := by
  obtain ⟨h0, h1⟩ := h
  have hlt : i.toNat < joy.axes.length := by omega
  simp [axesAt, reading, h0, List.getElem?_eq_getElem hlt, List.getD_eq_getElem _ _ hlt]

/-- A read of `buttons` at an index that names an element yields that element. -/
theorem buttonsAt_inRange (mem : Mem) (joy : Joy) {i : Int}
    (h : inRange joy.buttons.length i) :
    buttonsAt mem joy i = joy.buttons.getD i.toNat 0 := by
  obtain ⟨h0, h1⟩ := h
  have hlt : i.toNat < joy.buttons.length := by omega
  simp [buttonsAt, h0, List.getElem?_eq_getElem hlt, List.getD_eq_getElem _ _ hlt]

/-- Two states with the same ten fields are the same state. -/
theorem State.eq_of_fields {s t : State} (h1 : s.cmd_ = t.cmd_)
    (h2 : s.cmd_passthrough_ = t.cmd_passthrough_)
    (h3 : s.cmd_iws_revolute0 = t.cmd_iws_revolute0)
    (h4 : s.cmd_iws_steering0 = t.cmd_iws_steering0)
    (h5 : s.req_vx = t.req_vx) (h6 : s.req_vy = t.req_vy) (h7 : s.req_vw = t.req_vw)
    (h8 : s.req_scale = t.req_scale) (h9 : s.deadman_ = t.deadman_)
    (h10 : s.last_recieved_joy_message_time_ = t.last_recieved_joy_message_time_) :
    s = t := by
  cases s
  cases t
  simp_all

/-- A snapshot read as dead-man released: `joy_cb` returns at line 192. -/
theorem joy_cb_not_deadman (c : Config) (mem : Mem) (now : ℚ) (joy : Joy) (s : State)
    (h : buttonsAt mem joy c.deadman_button = 0) :
    joy_cb c mem now joy s = { s with deadman_ := false } := by
  simp [joy_cb, h]

/-- A snapshot read as dead-man pressed that `buttonsOK` rejects: `joy_cb` returns at
line 226. -/
theorem joy_cb_deadman_invalid (c : Config) (mem : Mem) (now : ℚ) (joy : Joy) (s : State)
    (h : buttonsAt mem joy c.deadman_button ≠ 0) (hv : buttonsOK c joy = false) :
    joy_cb c mem now joy s =
      { s with
        deadman_ := true
        req_scale :=
          if 0 ≤ c.scale_button ∧ buttonsAt mem joy c.scale_button ≠ 0 then c.scale else 1
        last_recieved_joy_message_time_ := now
        req_vx := 0
        req_vy := 0
        req_vw := 0 } := by
  simp only [joy_cb, hv]
  by_cases hs : 0 ≤ c.scale_button ∧ buttonsAt mem joy c.scale_button ≠ 0
  · simp [h, hs]
  · simp [h, hs]

/-- A snapshot read as dead-man pressed that `buttonsOK` accepts: `joy_cb` runs through
line 253. -/
theorem joy_cb_deadman_valid (c : Config) (mem : Mem) (now : ℚ) (joy : Joy) (s : State)
    (h : buttonsAt mem joy c.deadman_button ≠ 0) (hv : buttonsOK c joy = true) :
    joy_cb c mem now joy s =
      { s with
        deadman_ := true
        req_scale :=
          if 0 ≤ c.scale_button ∧ buttonsAt mem joy c.scale_button ≠ 0 then c.scale else 1
        last_recieved_joy_message_time_ := now
        req_vx := scalarOf mem joy c.axis_vx c.axis_vx_discrete c.max_vx
          (if 0 ≤ c.scale_button ∧ buttonsAt mem joy c.scale_button ≠ 0 then c.scale else 1)
        req_vy := scalarOf mem joy c.axis_vy c.axis_vy_discrete c.max_vy
          (if 0 ≤ c.scale_button ∧ buttonsAt mem joy c.scale_button ≠ 0 then c.scale else 1)
        req_vw := scalarOf mem joy c.axis_vw c.axis_vw_discrete c.max_vw
          (if 0 ≤ c.scale_button ∧ buttonsAt mem joy c.scale_button ≠ 0 then c.scale else 1)
        } := by
  have hd : (buttonsAt mem joy c.deadman_button != 0) = true := by simpa using h
  have hsc : ((decide (0 ≤ c.scale_button) && buttonsAt mem joy c.scale_button != 0) = true)
      = (0 ≤ c.scale_button ∧ buttonsAt mem joy c.scale_button ≠ 0) := by simp
  refine State.eq_of_fields ?_ ?_ ?_ ?_ ?_ ?_ ?_ ?_ ?_ ?_ <;>
    simp only [joy_cb, hv, hd, scalarOf, apply_ite State.cmd_, apply_ite State.cmd_passthrough_,
      apply_ite State.cmd_iws_revolute0, apply_ite State.cmd_iws_steering0,
      apply_ite State.req_vx, apply_ite State.req_vy, apply_ite State.req_vw,
      apply_ite State.req_scale, apply_ite State.deadman_,
      apply_ite State.last_recieved_joy_message_time_, ite_self, Bool.not_true,
      Bool.false_eq_true, if_false, hsc]
  all_goals split_ifs <;> simp_all

/-- C1: `buttonsOK` returns false if and only if one of the eight configured indices is
non-negative and not smaller than the length of its array (the two button indices against
`buttons`, the six axis indices against `axes`); in particular it returns true when all
eight indices are negative, whatever the lengths. -/
theorem buttonsOK_false_iff (c : Config) (joy : Joy) (hc : c.wf) :
    (buttonsOK c joy = false ↔
      (exceeds joy.buttons.length c.scale_button ∨
       exceeds joy.buttons.length c.deadman_button ∨
       exceeds joy.axes.length c.axis_vx ∨
       exceeds joy.axes.length c.axis_vy ∨
       exceeds joy.axes.length c.axis_vw ∨
       exceeds joy.axes.length c.axis_vx_discrete ∨
       exceeds joy.axes.length c.axis_vy_discrete ∨
       exceeds joy.axes.length c.axis_vw_discrete)) ∧
    (c.scale_button < 0 → c.deadman_button < 0 → c.axis_vx < 0 → c.axis_vy < 0 →
      c.axis_vw < 0 → c.axis_vx_discrete < 0 → c.axis_vy_discrete < 0 →
      c.axis_vw_discrete < 0 → buttonsOK c joy = true) := by
  refine ⟨buttonsOK_eq_false c joy hc, ?_⟩
  intro n1 n2 n3 n4 n5 n6 n7 n8
  have hne : ¬ buttonsOK c joy = false := by
    rw [buttonsOK_eq_false c joy hc]
    unfold exceeds
    omega
  simpa using hne

/-- C1 at the default configuration and a gamepad with 4 buttons: the configured
`scale_button` 4 is not below 4, and `buttonsOK` returns false. -/
theorem buttonsOK_false_iff_witness :
    defaultConfig.wf ∧ buttonsOK defaultConfig fourButtons = false :=
  ⟨by decide, (buttonsOK_false_iff defaultConfig fourButtons (by decide)).1.mpr (by decide)⟩

/-- The requested scalar in terms of the snapshot, for indices that are negative or name an
axis. -/
theorem scalarOf_eq (mem : Mem) (joy : Joy) (axis discrete : Int) (max scale : ℚ)
    (ha : 0 ≤ axis → inRange joy.axes.length axis)
    (hd : 0 ≤ discrete → inRange joy.axes.length discrete) :
    scalarOf mem joy axis discrete max scale =
      if fires joy discrete then reading joy discrete * max * scale
      else continuous joy axis max scale := by
  unfold scalarOf fires continuous
  by_cases h1 : 0 ≤ discrete
  · rw [axesAt_inRange mem joy (hd h1)]
    by_cases h2 : 0 ≤ axis
    · rw [axesAt_inRange mem joy (ha h2)]
      simp [h1, h2]
    · simp [h1, h2]
  · by_cases h2 : 0 ≤ axis
    · rw [axesAt_inRange mem joy (ha h2)]
      simp [h1, h2]
    · simp [h1, h2]

/-- The scale condition of line 194 in terms of the snapshot, for a scale button index that
is negative or names a button. -/
theorem scale_cond_iff (mem : Mem) (joy : Joy) (i : Int)
    (hi : 0 ≤ i → inRange joy.buttons.length i) :
    (0 ≤ i ∧ buttonsAt mem joy i ≠ 0) ↔ pressed joy i := by
  unfold pressed
  constructor
  · rintro ⟨h0, h1⟩
    rw [buttonsAt_inRange mem joy (hi h0)] at h1
    exact ⟨hi h0, h1⟩
  · rintro ⟨h0, h1⟩
    rw [← buttonsAt_inRange mem joy h0] at h1
    exact ⟨h0.1, h1⟩

/-- The state after `joy_cb`, for a snapshot `buttonsOK` accepts whose dead-man button is
pressed, in terms of the snapshot alone. -/
theorem joy_cb_pressed_valid (c : Config) (mem : Mem) (now : ℚ) (joy : Joy) (s : State)
    (hc : c.wf) (hv : buttonsOK c joy = true) (hd : pressed joy c.deadman_button) :
    (joy_cb c mem now joy s).req_scale = (if pressed joy c.scale_button then c.scale else 1) ∧
    (joy_cb c mem now joy s).req_vx =
      (if fires joy c.axis_vx_discrete
        then reading joy c.axis_vx_discrete * c.max_vx * (joy_cb c mem now joy s).req_scale
        else continuous joy c.axis_vx c.max_vx (joy_cb c mem now joy s).req_scale) ∧
    (joy_cb c mem now joy s).req_vy =
      (if fires joy c.axis_vy_discrete
        then reading joy c.axis_vy_discrete * c.max_vy * (joy_cb c mem now joy s).req_scale
        else continuous joy c.axis_vy c.max_vy (joy_cb c mem now joy s).req_scale) ∧
    (joy_cb c mem now joy s).req_vw =
      (if fires joy c.axis_vw_discrete
        then reading joy c.axis_vw_discrete * c.max_vw * (joy_cb c mem now joy s).req_scale
        else continuous joy c.axis_vw c.max_vw (joy_cb c mem now joy s).req_scale) := by
  obtain ⟨r1, -, r3, r4, r5, r6, r7, r8⟩ := buttonsOK_eq_true c joy hc hv
  have h0 : buttonsAt mem joy c.deadman_button ≠ 0 := by
    rw [buttonsAt_inRange mem joy hd.1]
    exact hd.2
  rw [joy_cb_deadman_valid c mem now joy s h0 hv]
  simp only [scalarOf_eq mem joy _ _ _ _ r3 r6, scalarOf_eq mem joy _ _ _ _ r4 r7,
    scalarOf_eq mem joy _ _ _ _ r5 r8, scale_cond_iff mem joy _ r1]
  exact ⟨trivial, trivial, trivial, trivial⟩

/-- C2: when the dead-man button, at its configured in-range index, is not pressed, `joy_cb`
leaves `req_vx`, `req_vy`, `req_vw`, `req_scale` and `last_recieved_joy_message_time_` as
they were before the call. -/
theorem joy_cb_released_frozen (c : Config) (mem : Mem) (now : ℚ) (joy : Joy) (s : State)
    (h : released joy c.deadman_button) :
    (joy_cb c mem now joy s).req_vx = s.req_vx ∧
    (joy_cb c mem now joy s).req_vy = s.req_vy ∧
    (joy_cb c mem now joy s).req_vw = s.req_vw ∧
    (joy_cb c mem now joy s).req_scale = s.req_scale ∧
    (joy_cb c mem now joy s).last_recieved_joy_message_time_ =
      s.last_recieved_joy_message_time_ := by
  have h0 : buttonsAt mem joy c.deadman_button = 0 := by
    rw [buttonsAt_inRange mem joy h.1]
    exact h.2
  rw [joy_cb_not_deadman c mem now joy s h0]
  exact ⟨rfl, rfl, rfl, rfl, rfl⟩

/-- C2 at the default configuration, an idle gamepad and a state with Requested Command
(1/2, 0, 1/4): the command is still (1/2, 0, 1/4) after the snapshot. -/
theorem joy_cb_released_frozen_witness :
    released idleJoy defaultConfig.deadman_button ∧
    (joy_cb defaultConfig junk 10 idleJoy movingState).req_vx = 1 / 2 ∧
    (joy_cb defaultConfig junk 10 idleJoy movingState).req_vy = 0 ∧
    (joy_cb defaultConfig junk 10 idleJoy movingState).req_vw = 1 / 4 ∧
    (joy_cb defaultConfig junk 10 idleJoy movingState).req_scale = 1 ∧
    (joy_cb defaultConfig junk 10 idleJoy movingState).last_recieved_joy_message_time_ = 0 :=
  ⟨by decide, joy_cb_released_frozen defaultConfig junk 10 idleJoy movingState (by decide)⟩

/-- C3: for a snapshot that passes `buttonsOK` and has the dead-man button pressed, `joy_cb`
sets `req_scale` to the configured scale if the scale button is configured and pressed and
to 1 otherwise, and sets each requested scalar whose discrete override does not fire to
reading * max * req_scale of its continuous axis when that index is non-negative and to 0
when it is negative. -/
theorem joy_cb_scale_and_continuous (c : Config) (mem : Mem) (now : ℚ) (joy : Joy)
    (s : State) (hc : c.wf) (hv : buttonsOK c joy = true)
    (hd : pressed joy c.deadman_button) :
    (joy_cb c mem now joy s).req_scale = (if pressed joy c.scale_button then c.scale else 1) ∧
    (¬ fires joy c.axis_vx_discrete →
      (joy_cb c mem now joy s).req_vx =
        if 0 ≤ c.axis_vx
        then reading joy c.axis_vx * c.max_vx * (joy_cb c mem now joy s).req_scale else 0) ∧
    (¬ fires joy c.axis_vy_discrete →
      (joy_cb c mem now joy s).req_vy =
        if 0 ≤ c.axis_vy
        then reading joy c.axis_vy * c.max_vy * (joy_cb c mem now joy s).req_scale else 0) ∧
    (¬ fires joy c.axis_vw_discrete →
      (joy_cb c mem now joy s).req_vw =
        if 0 ≤ c.axis_vw
        then reading joy c.axis_vw * c.max_vw * (joy_cb c mem now joy s).req_scale else 0) := by
  obtain ⟨e0, e1, e2, e3⟩ := joy_cb_pressed_valid c mem now joy s hc hv hd
  refine ⟨e0, ?_, ?_, ?_⟩ <;> intro h
  · rw [e1, if_neg h, continuous]
  · rw [e2, if_neg h, continuous]
  · rw [e3, if_neg h, continuous]

/-- C3 at the scenario of the spec: dead-man and scale button pressed, `axis_vx` reading
0.5, `max_vx` 1 and `scale` 2 give `req_scale` 2 and `req_vx` 1; the disabled `axis_vy`
gives `req_vy` 0. -/
theorem joy_cb_scale_and_continuous_witness :
    defaultConfig.wf ∧ buttonsOK defaultConfig scenarioJoy = true ∧
    pressed scenarioJoy defaultConfig.deadman_button ∧
    (joy_cb defaultConfig junk 10 scenarioJoy movingState).req_scale = 2 ∧
    (joy_cb defaultConfig junk 10 scenarioJoy movingState).req_vx = 1 ∧
    (joy_cb defaultConfig junk 10 scenarioJoy movingState).req_vy = 0 := by
  have h := joy_cb_scale_and_continuous defaultConfig junk 10 scenarioJoy movingState
    (by decide) (by decide) (by decide)
  obtain ⟨e0, e1, e2, -⟩ := h
  have hs : (joy_cb defaultConfig junk 10 scenarioJoy movingState).req_scale = 2 := by
    rw [e0]
    have hp : pressed scenarioJoy defaultConfig.scale_button := by decide
    rw [if_pos hp]
    rfl
  have hx : ¬ fires scenarioJoy defaultConfig.axis_vx_discrete := by
    simp [fires, reading, scenarioJoy, defaultConfig]
    norm_num
  have hy : ¬ fires scenarioJoy defaultConfig.axis_vy_discrete := by
    simp [fires, defaultConfig]
  refine ⟨by decide, by decide, by decide, hs, ?_, ?_⟩
  · rw [e1 hx, hs]
    simp [reading, scenarioJoy, defaultConfig]
    norm_num
  · rw [e2 hy]
    simp [defaultConfig]

/-- C4: for a snapshot that passes `buttonsOK` and has the dead-man button pressed, and for
each of the three scalars: if the discrete axis index is non-negative and the absolute value
of its reading is greater than 0.9, the requested scalar is that reading * max * req_scale,
whatever the continuous axis index is; if the discrete index is non-negative and the
absolute value of its reading is at most 0.9, the requested scalar is the continuous-axis
result. -/
theorem joy_cb_discrete_override (c : Config) (mem : Mem) (now : ℚ) (joy : Joy)
    (s : State) (hc : c.wf) (hv : buttonsOK c joy = true)
    (hd : pressed joy c.deadman_button) :
    ((0 ≤ c.axis_vx_discrete ∧ |reading joy c.axis_vx_discrete| > 0.9 →
        (joy_cb c mem now joy s).req_vx =
          reading joy c.axis_vx_discrete * c.max_vx * (joy_cb c mem now joy s).req_scale) ∧
      (0 ≤ c.axis_vx_discrete ∧ |reading joy c.axis_vx_discrete| ≤ 0.9 →
        (joy_cb c mem now joy s).req_vx =
          continuous joy c.axis_vx c.max_vx (joy_cb c mem now joy s).req_scale)) ∧
    ((0 ≤ c.axis_vy_discrete ∧ |reading joy c.axis_vy_discrete| > 0.9 →
        (joy_cb c mem now joy s).req_vy =
          reading joy c.axis_vy_discrete * c.max_vy * (joy_cb c mem now joy s).req_scale) ∧
      (0 ≤ c.axis_vy_discrete ∧ |reading joy c.axis_vy_discrete| ≤ 0.9 →
        (joy_cb c mem now joy s).req_vy =
          continuous joy c.axis_vy c.max_vy (joy_cb c mem now joy s).req_scale)) ∧
    ((0 ≤ c.axis_vw_discrete ∧ |reading joy c.axis_vw_discrete| > 0.9 →
        (joy_cb c mem now joy s).req_vw =
          reading joy c.axis_vw_discrete * c.max_vw * (joy_cb c mem now joy s).req_scale) ∧
      (0 ≤ c.axis_vw_discrete ∧ |reading joy c.axis_vw_discrete| ≤ 0.9 →
        (joy_cb c mem now joy s).req_vw =
          continuous joy c.axis_vw c.max_vw (joy_cb c mem now joy s).req_scale)) := by
  obtain ⟨-, e1, e2, e3⟩ := joy_cb_pressed_valid c mem now joy s hc hv hd
  refine ⟨⟨?_, ?_⟩, ⟨?_, ?_⟩, ⟨?_, ?_⟩⟩ <;> intro h
  · rw [e1, if_pos (show fires joy c.axis_vx_discrete from h)]
  · rw [e1, if_neg (fun hf => absurd hf.2 (not_lt.mpr h.2))]
  · rw [e2, if_pos (show fires joy c.axis_vy_discrete from h)]
  · rw [e2, if_neg (fun hf => absurd hf.2 (not_lt.mpr h.2))]
  · rw [e3, if_pos (show fires joy c.axis_vw_discrete from h)]
  · rw [e3, if_neg (fun hf => absurd hf.2 (not_lt.mpr h.2))]

/-- C4 at the default configuration with the dead-man pressed, `axis_vx` reading 0.5 and
the discrete axis 7 reading -1: `req_vx` is -1, not 0.5; the discrete axis 6 reads 0 and
`req_vw` is the continuous result 0. -/
theorem joy_cb_discrete_override_witness :
    defaultConfig.wf ∧ buttonsOK defaultConfig discreteJoy = true ∧
    pressed discreteJoy defaultConfig.deadman_button ∧
    (joy_cb defaultConfig junk 10 discreteJoy movingState).req_vx = -1 ∧
    (joy_cb defaultConfig junk 10 discreteJoy movingState).req_vw = 0 := by
  have h := joy_cb_discrete_override defaultConfig junk 10 discreteJoy movingState
    (by decide) (by decide) (by decide)
  obtain ⟨⟨e1, -⟩, -, ⟨-, e3⟩⟩ := h
  have hs : (joy_cb defaultConfig junk 10 discreteJoy movingState).req_scale = 1 :=
    (joy_cb_pressed_valid defaultConfig junk 10 discreteJoy movingState
      (by decide) (by decide) (by decide)).1.trans (if_neg (by decide))
  have hx : 0 ≤ defaultConfig.axis_vx_discrete ∧
      |reading discreteJoy defaultConfig.axis_vx_discrete| > 0.9 := by
    simp [reading, discreteJoy, defaultConfig]
    norm_num
  have hw : 0 ≤ defaultConfig.axis_vw_discrete ∧
      |reading discreteJoy defaultConfig.axis_vw_discrete| ≤ 0.9 := by
    simp [reading, discreteJoy, defaultConfig]
    norm_num
  refine ⟨by decide, by decide, by decide, ?_, ?_⟩
  · rw [e1 hx, hs]
    simp [reading, discreteJoy, defaultConfig]
  · rw [e3 hw, hs]
    simp [continuous, reading, discreteJoy, defaultConfig]

/-- C5 as stated fails: at the default configuration, a snapshot with the dead-man button
pressed and only 2 axes is rejected by `buttonsOK` (`axis_vw` is 3), and `joy_cb` changes
`req_vx` from 1/2 to 0, `req_vw` from 1/4 to 0 and the Liveness Clock from 0 to 10. -/
theorem joy_cb_invalid_changes_state :
    buttonsOK defaultConfig twoAxes = false ∧
    movingState.req_vx = 1 / 2 ∧
    (joy_cb defaultConfig junk 10 twoAxes movingState).req_vx = 0 ∧
    movingState.req_vw = 1 / 4 ∧
    (joy_cb defaultConfig junk 10 twoAxes movingState).req_vw = 0 ∧
    movingState.last_recieved_joy_message_time_ = 0 ∧
    (joy_cb defaultConfig junk 10 twoAxes movingState).last_recieved_joy_message_time_ = 10 := by
  have hv : buttonsOK defaultConfig twoAxes = false := by decide
  have h0 : buttonsAt junk twoAxes defaultConfig.deadman_button ≠ 0 := by decide
  rw [joy_cb_deadman_invalid defaultConfig junk 10 twoAxes movingState h0 hv]
  exact ⟨hv, rfl, rfl, rfl, rfl, rfl, rfl⟩

/-- C5, amended: for a snapshot that `buttonsOK` rejects, if the dead-man button, at its
in-range index, is not pressed, `joy_cb` leaves the Requested Command, `req_scale` and the
Liveness Clock as they were; if it is pressed, `joy_cb` applies no axis reading: it sets the
Requested Command to (0, 0, 0) and the Liveness Clock to `now`, and, for a scale button
index that is negative or in range, `req_scale` to the configured scale if the scale button
is pressed and to 1 otherwise. -/
theorem joy_cb_invalid (c : Config) (mem : Mem) (now : ℚ) (joy : Joy) (s : State)
    (hv : buttonsOK c joy = false) :
    (released joy c.deadman_button →
      (joy_cb c mem now joy s).req_vx = s.req_vx ∧
      (joy_cb c mem now joy s).req_vy = s.req_vy ∧
      (joy_cb c mem now joy s).req_vw = s.req_vw ∧
      (joy_cb c mem now joy s).req_scale = s.req_scale ∧
      (joy_cb c mem now joy s).last_recieved_joy_message_time_ =
        s.last_recieved_joy_message_time_) ∧
    (pressed joy c.deadman_button →
      (joy_cb c mem now joy s).req_vx = 0 ∧
      (joy_cb c mem now joy s).req_vy = 0 ∧
      (joy_cb c mem now joy s).req_vw = 0 ∧
      (joy_cb c mem now joy s).last_recieved_joy_message_time_ = now ∧
      (c.scale_button < 0 ∨ inRange joy.buttons.length c.scale_button →
        (joy_cb c mem now joy s).req_scale =
          if pressed joy c.scale_button then c.scale else 1)) := by
  constructor
  · intro h
    have h0 : buttonsAt mem joy c.deadman_button = 0 := by
      rw [buttonsAt_inRange mem joy h.1]
      exact h.2
    rw [joy_cb_not_deadman c mem now joy s h0]
    exact ⟨rfl, rfl, rfl, rfl, rfl⟩
  · intro h
    have h0 : buttonsAt mem joy c.deadman_button ≠ 0 := by
      rw [buttonsAt_inRange mem joy h.1]
      exact h.2
    rw [joy_cb_deadman_invalid c mem now joy s h0 hv]
    refine ⟨rfl, rfl, rfl, rfl, fun hs => ?_⟩
    have hi : 0 ≤ c.scale_button → inRange joy.buttons.length c.scale_button := by
      intro h1
      rcases hs with h2 | h2
      · omega
      · exact h2
    simp only [scale_cond_iff mem joy _ hi]

/-- C5, amended, at the default configuration and a snapshot with the dead-man button
pressed and only 2 axes: the Requested Command becomes (0, 0, 0). -/
theorem joy_cb_invalid_witness :
    buttonsOK defaultConfig twoAxes = false ∧
    (joy_cb defaultConfig junk 10 twoAxes movingState).req_vx = 0 ∧
    (joy_cb defaultConfig junk 10 twoAxes movingState).req_vy = 0 ∧
    (joy_cb defaultConfig junk 10 twoAxes movingState).req_vw = 0 :=
  have h := (joy_cb_invalid defaultConfig junk 10 twoAxes movingState (by decide)).2
    (by decide)
  ⟨by decide, h.1, h.2.1, h.2.2.1⟩

/-- What `send_cmd_vel` publishes in Twist mode. -/
theorem send_cmd_vel_twist (c : Config) (m : Libm) (now : ℚ) (s : State)
    (ht : c.publisher_type = 0) :
    ∃ cmd, (send_cmd_vel c m now s).2 = some (Published.twist cmd) ∧
      cmd.triple = sourceTriple c now s := by
  by_cases hf : fallback c now s
  · have hb : (!s.deadman_ || decide (s.last_recieved_joy_message_time_ + c.joy_msg_timeout_
        < now)) = true := by
      unfold fallback at hf
      simpa using hf
    refine ⟨{ s.cmd_ with linear_x := s.cmd_passthrough_.linear_x,
                          linear_y := s.cmd_passthrough_.linear_y,
                          angular_z := s.cmd_passthrough_.angular_z }, ?_, ?_⟩
    · simp only [send_cmd_vel, ht, hb, if_true]
    · simp [Twist.triple, sourceTriple, hf, passthroughTriple]
  · have hb : (!s.deadman_ || decide (s.last_recieved_joy_message_time_ + c.joy_msg_timeout_
        < now)) = false := by
      unfold fallback at hf
      simpa using hf
    refine ⟨{ s.cmd_ with linear_x := s.req_vx, linear_y := s.req_vy,
                          angular_z := s.req_vw }, ?_, ?_⟩
    · simp only [send_cmd_vel, ht, hb, if_true]
      rfl
    · simp [Twist.triple, sourceTriple, hf, requestedTriple]

/-- No snapshot changes the Passthrough Command. -/
theorem joy_cb_cmd_passthrough (c : Config) (mem : Mem) (now : ℚ) (joy : Joy) (s : State) :
    (joy_cb c mem now joy s).cmd_passthrough_ = s.cmd_passthrough_ := by
  by_cases h0 : buttonsAt mem joy c.deadman_button = 0
  · rw [joy_cb_not_deadman c mem now joy s h0]
  · cases hv : buttonsOK c joy with
    | false => rw [joy_cb_deadman_invalid c mem now joy s h0 hv]
    | true => rw [joy_cb_deadman_valid c mem now joy s h0 hv]

/-- A snapshot with the dead-man button released leaves `deadman_` false and the
Passthrough Command as it was. -/
theorem joy_cb_released (c : Config) (mem : Mem) (now : ℚ) (joy : Joy) (s : State)
    (h : released joy c.deadman_button) :
    (joy_cb c mem now joy s).deadman_ = false ∧
    (joy_cb c mem now joy s).cmd_passthrough_ = s.cmd_passthrough_ := by
  have h0 : buttonsAt mem joy c.deadman_button = 0 := by
    rw [buttonsAt_inRange mem joy h.1]
    exact h.2
  rw [joy_cb_not_deadman c mem now joy s h0]
  exact ⟨rfl, rfl⟩

/-- C6: in Twist mode `send_cmd_vel` publishes a `Twist` whose triple (linear.x, linear.y,
angular.z) is the Passthrough Command triple when the dead-man is not held or the Liveness
Clock plus the timeout is earlier than `now`, and the stored Requested Command triple
otherwise. After a Passthrough Command `pass_msg`, a snapshot with the dead-man pressed and
a snapshot with it released, the next tick publishes the triple of `pass_msg`. -/
theorem send_cmd_vel_twist_source (c : Config) (m : Libm) (now : ℚ) (s : State)
    (ht : c.publisher_type = 0) :
    (∃ cmd, (send_cmd_vel c m now s).2 = some (Published.twist cmd) ∧
      ((s.deadman_ = false ∨ s.last_recieved_joy_message_time_ + c.joy_msg_timeout_ < now) →
        cmd.triple = passthroughTriple s) ∧
      (¬ (s.deadman_ = false ∨ s.last_recieved_joy_message_time_ + c.joy_msg_timeout_ < now) →
        cmd.triple = requestedTriple s)) ∧
    (∀ (mem : Mem) (pass_msg : Twist) (t1 t2 : ℚ) (joy1 joy2 : Joy),
      pressed joy1 c.deadman_button → released joy2 c.deadman_button →
      ∃ cmd, (send_cmd_vel c m now (joy_cb c mem t2 joy2 (joy_cb c mem t1 joy1
          (callback_cmd_passthrough pass_msg s)))).2 = some (Published.twist cmd) ∧
        cmd.triple = pass_msg.triple) := by
  constructor
  · obtain ⟨cmd, h1, h2⟩ := send_cmd_vel_twist c m now s ht
    refine ⟨cmd, h1, fun hf => ?_, fun hf => ?_⟩
    · rw [h2, sourceTriple, if_pos (show fallback c now s from hf)]
    · rw [h2, sourceTriple, if_neg (show ¬ fallback c now s from hf)]
  · intro mem pass_msg t1 t2 joy1 joy2 _ h2
    obtain ⟨cmd, e1, e2⟩ := send_cmd_vel_twist c m now (joy_cb c mem t2 joy2
      (joy_cb c mem t1 joy1 (callback_cmd_passthrough pass_msg s))) ht
    obtain ⟨r1, r2⟩ := joy_cb_released c mem t2 joy2
      (joy_cb c mem t1 joy1 (callback_cmd_passthrough pass_msg s)) h2
    refine ⟨cmd, e1, ?_⟩
    rw [e2, sourceTriple, if_pos (show fallback c now _ from Or.inl r1), passthroughTriple, r2,
      joy_cb_cmd_passthrough]
    rfl

/-- C6 at the default configuration: with the dead-man held and a fresh Liveness Clock the
tick publishes the Requested Command (1/2, 0, 1/4); after a Passthrough Command
(1/8, 0, 1/16), a pressed and a released snapshot it publishes (1/8, 0, 1/16). -/
theorem send_cmd_vel_twist_source_witness :
    defaultConfig.publisher_type = 0 ∧
    (∃ cmd, (send_cmd_vel defaultConfig libmQ 1 movingState).2 = some (Published.twist cmd) ∧
      cmd.triple = (1 / 2, 0, 1 / 4)) ∧
    (∃ cmd, (send_cmd_vel defaultConfig libmQ 1 (joy_cb defaultConfig junk 12 idleJoy
        (joy_cb defaultConfig junk 11 scenarioJoy
          (callback_cmd_passthrough ⟨1 / 8, 0, 0, 0, 0, 1 / 16⟩ movingState)))).2
        = some (Published.twist cmd) ∧
      cmd.triple = (1 / 8, 0, 1 / 16)) := by
  have h := send_cmd_vel_twist_source defaultConfig libmQ 1 movingState rfl
  obtain ⟨⟨cmd, h1, -, h3⟩, h4⟩ := h
  refine ⟨rfl, ⟨cmd, h1, ?_⟩, ?_⟩
  · rw [h3 (by simp [movingState, defaultConfig, init_joy_msg_timeout])]
    rfl
  · exact h4 junk ⟨1 / 8, 0, 0, 0, 0, 1 / 16⟩ 11 12 scenarioJoy idleJoy (by decide) (by decide)

/-- C7 fails on the code: with the parameter `joy_msg_timeout` at -1, `init` sets a timeout
of 9999999 seconds; a tick 10000000 seconds after the last accepted snapshot, with the
dead-man held and Requested Command (1/2, 0, 1/4), publishes the Passthrough Command
(0, 0, 0). -/
theorem send_cmd_vel_no_timeout_stale :
    defaultConfig.joy_msg_timeout_ = init_joy_msg_timeout (-1) ∧
    init_joy_msg_timeout (-1) = 9999999 ∧
    movingState.deadman_ = true ∧
    movingState.last_recieved_joy_message_time_ = 0 ∧
    requestedTriple movingState = (1 / 2, 0, 1 / 4) ∧
    ∃ cmd, (send_cmd_vel defaultConfig libmQ 10000000 movingState).2
        = some (Published.twist cmd) ∧
      cmd.triple = (0, 0, 0) := by
  have ht : init_joy_msg_timeout (-1) = 9999999 := by
    unfold init_joy_msg_timeout
    norm_num
  obtain ⟨cmd, h1, h2⟩ := send_cmd_vel_twist defaultConfig libmQ 10000000 movingState rfl
  refine ⟨rfl, ht, rfl, rfl, rfl, cmd, h1, ?_⟩
  have hf : fallback defaultConfig 10000000 movingState := by
    right
    show (0 : ℚ) + init_joy_msg_timeout (-1) < 10000000
    rw [ht]
    norm_num
  rw [h2, sourceTriple, if_pos hf]
  rfl

/-- The quotient of two finite `double`s is NaN only as 0 / 0. -/
theorem fdiv_eq_nan_iff (x y : ℚ) : fdiv x y = Double.nan ↔ (x = 0 ∧ y = 0) := by
  unfold fdiv
  by_cases hy : y = 0
  · by_cases hx : x = 0
    · simp [hx, hy]
    · simp [hx, hy]
  · simp [hy]

/-- The clamp of lines 289-290 on a raw angle that is not NaN, for a non-negative bound:
the result is finite; it is the raw angle inside the interval, the upper bound above it and
at `+inf`, the lower bound below it and at `-inf`. -/
theorem clamp_of_not_nan (raw : Double) (bound : ℚ) (hb : 0 ≤ bound)
    (hraw : raw ≠ Double.nan) :
    ∃ a : ℚ,
      (if raw.gt bound then Double.finite bound
        else if raw.lt (-bound) then Double.finite (-bound) else raw) = Double.finite a ∧
      (∀ r, raw = Double.finite r → -bound ≤ r → r ≤ bound → a = r) ∧
      (∀ r, raw = Double.finite r → bound < r → a = bound) ∧
      (∀ r, raw = Double.finite r → r < -bound → a = -bound) ∧
      (raw = Double.inf false → a = bound) ∧
      (raw = Double.inf true → a = -bound) := by
  cases raw with
  | nan => exact absurd rfl hraw
  | inf negative =>
    cases negative with
    | false => exact ⟨bound, by simp [Double.gt], by simp, by simp, by simp, by simp, by simp⟩
    | true =>
      exact ⟨-bound, by simp [Double.gt, Double.lt], by simp, by simp, by simp, by simp,
        by simp⟩
  | finite q =>
    by_cases h1 : q > bound
    · refine ⟨bound, by simp [Double.gt, h1], ?_, by simp, ?_, by simp, by simp⟩
      · intro r hr _ h3
        cases hr
        exact absurd h1 (not_lt.mpr h3)
      · intro r hr h2
        cases hr
        linarith
    · by_cases h2 : q < -bound
      · refine ⟨-bound, by simp [Double.gt, Double.lt, h1, h2], ?_, ?_, by simp, by simp,
          by simp⟩
        · intro r hr h3 _
          cases hr
          exact absurd h2 (not_lt.mpr h3)
        · intro r hr h3
          cases hr
          exact absurd h3 h1
      · refine ⟨q, by simp [Double.gt, Double.lt, h1, h2], ?_, ?_, ?_, by simp, by simp⟩
        · intro r hr _ _
          cases hr
          rfl
        · intro r hr h3
          cases hr
          exact absurd h3 h1
        · intro r hr h3
          cases hr
          exact absurd h3 h2

/-- What `send_cmd_vel` publishes in Ackermann mode. -/
theorem send_cmd_vel_iws (c : Config) (m : Libm) (now : ℚ) (s : State)
    (ha : c.publisher_type = 1) :
    (send_cmd_vel c m now s).2 =
      some (Published.iws (fdiv (sourceTriple c now s).1 (c.wheel_diameter / 2))
        ((m.sinD
          (if (rawAngle c m now s).gt c.steering_angle then Double.finite c.steering_angle
            else if (rawAngle c m now s).lt (-c.steering_angle)
              then Double.finite (-c.steering_angle)
              else rawAngle c m now s)).divBy c.wheel_base)) := by
  have h10 : ¬ ((1 : Int) = 0) := by decide
  by_cases hf : fallback c now s
  · have hb : (!s.deadman_ || decide (s.last_recieved_joy_message_time_ +
        c.joy_msg_timeout_ < now)) = true := by
      unfold fallback at hf
      simpa using hf
    simp only [send_cmd_vel, ha, hb, h10, if_true, if_false, rawAngle, sourceTriple, if_pos hf,
      passthroughTriple]
  · have hb : (!s.deadman_ || decide (s.last_recieved_joy_message_time_ +
        c.joy_msg_timeout_ < now)) = false := by
      unfold fallback at hf
      simpa using hf
    simp only [send_cmd_vel, ha, hb, h10, if_true, if_false, rawAngle, sourceTriple, if_neg hf,
      requestedTriple]
    rfl

/-- Under a configured `scale` of 0, a snapshot with the dead-man and the scale button
pressed leaves Requested Command (0, 0, 0) and `req_scale` 0. -/
theorem joy_cb_zeroScale :
    joy_cb zeroScaleConfig junk 0 scenarioJoy movingState = zeroScaleState := by
  have h0 : buttonsAt junk scenarioJoy zeroScaleConfig.deadman_button ≠ 0 := by decide
  have hv : buttonsOK zeroScaleConfig scenarioJoy = true := by decide
  have hs : buttonsAt junk scenarioJoy zeroScaleConfig.scale_button ≠ 0 := by decide
  have hsb : (0 : Int) ≤ zeroScaleConfig.scale_button := by decide
  rw [joy_cb_deadman_valid zeroScaleConfig junk 0 scenarioJoy movingState h0 hv,
    if_pos ⟨hsb, hs⟩]
  have hz : zeroScaleConfig.scale = 0 := rfl
  refine State.eq_of_fields rfl rfl rfl rfl ?_ ?_ ?_ ?_ rfl rfl
  · show scalarOf junk scenarioJoy _ _ _ zeroScaleConfig.scale = 0
    rw [hz]
    simp [scalarOf]
  · show scalarOf junk scenarioJoy _ _ _ zeroScaleConfig.scale = 0
    rw [hz]
    simp [scalarOf]
  · show scalarOf junk scenarioJoy _ _ _ zeroScaleConfig.scale = 0
    rw [hz]
    simp [scalarOf]
  · rfl

/-- C8 as stated fails: in Ackermann mode with `steering_angle` 1, `wheel_base` 1/2 and a
configured `scale` of 0, a snapshot with the dead-man and the scale button pressed leaves
angular scalar 0 and `req_scale` 0; at the next tick the raw angle is 0 / 0 = NaN, the clamp
lets it through and `send_cmd_vel` publishes the steering value NaN, which is
sin(a) / wheel_base for no angle a. -/
theorem send_cmd_vel_ackermann_nan :
    zeroScaleConfig.publisher_type = 1 ∧ 0 ≤ zeroScaleConfig.steering_angle ∧
    rawAngle zeroScaleConfig libmQ 1
      (joy_cb zeroScaleConfig junk 0 scenarioJoy movingState) = Double.nan ∧
    (send_cmd_vel zeroScaleConfig libmQ 1
      (joy_cb zeroScaleConfig junk 0 scenarioJoy movingState)).2 =
      some (Published.iws (Double.finite 0) Double.nan) ∧
    ∀ a : ℚ, fdiv (libmQ.sin a) zeroScaleConfig.wheel_base ≠ Double.nan := by
  rw [joy_cb_zeroScale]
  have hf : ¬ fallback zeroScaleConfig 1 zeroScaleState := by
    simp [fallback, zeroScaleState, movingState, zeroScaleConfig, ackermannConfig,
      defaultConfig, init_joy_msg_timeout]
  have hsrc : sourceTriple zeroScaleConfig 1 zeroScaleState = (0, 0, 0) := by
    rw [sourceTriple, if_neg hf]
    rfl
  have hraw : rawAngle zeroScaleConfig libmQ 1 zeroScaleState = Double.nan := by
    rw [rawAngle, hsrc, fdiv_eq_nan_iff]
    simp [zeroScaleState]
  have hsa : (0 : ℚ) ≤ zeroScaleConfig.steering_angle := by
    show (0 : ℚ) ≤ 1
    norm_num
  have hwb : zeroScaleConfig.wheel_base ≠ 0 := by
    show (1 / 2 : ℚ) ≠ 0
    norm_num
  refine ⟨rfl, hsa, hraw, ?_, ?_⟩
  · rw [send_cmd_vel_iws zeroScaleConfig libmQ 1 zeroScaleState rfl, hraw, hsrc]
    have h5 : fdiv 0 (zeroScaleConfig.wheel_diameter / 2) = Double.finite 0 := by
      simp [fdiv, zeroScaleConfig, ackermannConfig]
    simp only [Double.gt, Double.lt, Libm.sinD, Double.divBy, Bool.false_eq_true, if_false, h5]
  · intro a h
    exact hwb ((fdiv_eq_nan_iff _ _).mp h).2

/-- C8, amended: in Ackermann mode, with a non-negative `steering_angle` and a raw angle
angular scalar * M_PI / (2 * req_scale) that is not NaN (`req_scale` is not 0, or the
numerator is not 0), `send_cmd_vel` publishes the wheel rate
forward scalar / (wheel_diameter / 2) and the steering value sin(a) / wheel_base, the
quotients being those of `double`s, where a is the raw angle clamped to
[-steering_angle, steering_angle]: the raw angle when it lies in the interval,
`steering_angle` when it is above or `+inf`, `-steering_angle` when it is below or `-inf`. -/
theorem send_cmd_vel_ackermann (c : Config) (m : Libm) (now : ℚ) (s : State)
    (ha : c.publisher_type = 1) (hs : 0 ≤ c.steering_angle)
    (hraw : s.req_scale ≠ 0 ∨ (sourceTriple c now s).2.2 * m.M_PI ≠ 0) :
    ∃ a : ℚ, (send_cmd_vel c m now s).2 =
        some (Published.iws (fdiv (sourceTriple c now s).1 (c.wheel_diameter / 2))
          (fdiv (m.sin a) c.wheel_base)) ∧
      (∀ r, rawAngle c m now s = Double.finite r →
        -c.steering_angle ≤ r → r ≤ c.steering_angle → a = r) ∧
      (∀ r, rawAngle c m now s = Double.finite r → c.steering_angle < r →
        a = c.steering_angle) ∧
      (∀ r, rawAngle c m now s = Double.finite r → r < -c.steering_angle →
        a = -c.steering_angle) ∧
      (rawAngle c m now s = Double.inf false → a = c.steering_angle) ∧
      (rawAngle c m now s = Double.inf true → a = -c.steering_angle) := by
  have hn : rawAngle c m now s ≠ Double.nan := by
    intro h
    rw [rawAngle, fdiv_eq_nan_iff] at h
    rcases hraw with h1 | h1
    · apply h1
      have h2 := h.2
      linarith
    · exact h1 h.1
  obtain ⟨a, e, p1, p2, p3, p4, p5⟩ := clamp_of_not_nan (rawAngle c m now s)
    c.steering_angle hs hn
  refine ⟨a, ?_, p1, p2, p3, p4, p5⟩
  rw [send_cmd_vel_iws c m now s ha, e]
  rfl

/-- C8, amended, at the scenario of the spec: a raw steering angle of 2 with
`steering_angle` 1 is clamped to 1; the published steering value is sin(1) / wheel_base and
the wheel rate is (1/2) / ((1/5) / 2) = 5. -/
theorem send_cmd_vel_ackermann_witness :
    ackermannConfig.publisher_type = 1 ∧ 0 ≤ ackermannConfig.steering_angle ∧
    steeringState.req_scale ≠ 0 ∧
    rawAngle ackermannConfig libmQ 1 steeringState = Double.finite 2 ∧
    (send_cmd_vel ackermannConfig libmQ 1 steeringState).2 =
      some (Published.iws (Double.finite 5)
        (Double.finite (libmQ.sin 1 / ackermannConfig.wheel_base))) := by
  have hf : ¬ fallback ackermannConfig 1 steeringState := by
    simp [fallback, steeringState, movingState, ackermannConfig, defaultConfig,
      init_joy_msg_timeout]
  have hsrc : sourceTriple ackermannConfig 1 steeringState = requestedTriple steeringState := by
    rw [sourceTriple, if_neg hf]
  have hsc : steeringState.req_scale ≠ 0 := by
    show (1 : ℚ) ≠ 0
    norm_num
  have hraw : rawAngle ackermannConfig libmQ 1 steeringState = Double.finite 2 := by
    rw [rawAngle, hsrc]
    simp [fdiv, requestedTriple, steeringState, movingState, libmQ, M_PI_double]
    norm_num
  have hfwd : fdiv (sourceTriple ackermannConfig 1 steeringState).1
      (ackermannConfig.wheel_diameter / 2) = Double.finite 5 := by
    rw [hsrc]
    simp [fdiv, requestedTriple, steeringState, movingState, ackermannConfig, defaultConfig]
    norm_num
  have hsa : (0 : ℚ) ≤ ackermannConfig.steering_angle := by
    show (0 : ℚ) ≤ 1
    norm_num
  have hwb : fdiv (libmQ.sin 1) ackermannConfig.wheel_base =
      Double.finite (libmQ.sin 1 / ackermannConfig.wheel_base) := by
    have h0 : ackermannConfig.wheel_base ≠ 0 := by
      show (1 / 2 : ℚ) ≠ 0
      norm_num
    simp [fdiv, h0]
  obtain ⟨a, h1, -, h3, -⟩ := send_cmd_vel_ackermann ackermannConfig libmQ 1 steeringState
    rfl hsa (Or.inl hsc)
  have ha : a = 1 := by
    apply h3 2 hraw
    show (1 : ℚ) < 2
    norm_num
  rw [ha, hfwd, hwb] at h1
  exact ⟨rfl, hsa, hsc, hraw, h1⟩

end Joy2Twist

namespace Gui2IwsNode

/-- Once the flag is cleared, consecutive calls publish nothing. -/
theorem publishJntsCmdsAt_cleared (dT : State → ℚ) (times : List ℚ) (s : State)
    (h : s.new_trajectory = false) : (publishJntsCmdsAt dT times s).2 = [] := by
  induction times generalizing s with
  | nil => rfl
  | cons now rest ih =>
    have h1 : publishJntsCmds dT now s = (s, none) := by
      simp [publishJntsCmds, h]
    simp only [publishJntsCmdsAt, h1, Option.toList, List.nil_append]
    exact ih s h

/-- The flag is cleared after every call. -/
theorem publishJntsCmds_clears (dT : State → ℚ) (now : ℚ) (s : State) :
    (publishJntsCmds dT now s).1.new_trajectory = false := by
  cases h : s.new_trajectory with
  | false => simp [publishJntsCmds, h]
  | true => simp [publishJntsCmds, h]

/-- C9: `publishJntsCmds` publishes a message if and only if `new_trajectory` is set when it
is called; the message carries the computed target time delta and the three scalars v, rho
and phi of `bodyStateTarget_`; after every call the flag is cleared; and consecutive calls,
with nothing re-arming the flag in between, publish at most one message. -/
theorem publishJntsCmds_one_shot (dT : State → ℚ) (now : ℚ) (s : State) :
    ((publishJntsCmds dT now s).2.isSome = true ↔ s.new_trajectory = true) ∧
    (s.new_trajectory = true →
      (publishJntsCmds dT now s).2 =
        some { stamp := now
               deltaT := dT { s with new_trajectory := false }
               v := s.bodyStateTarget_.v
               rho := s.bodyStateTarget_.rho
               phi := s.bodyStateTarget_.phi }) ∧
    (publishJntsCmds dT now s).1.new_trajectory = false ∧
    (∀ times : List ℚ, (publishJntsCmdsAt dT times s).2.length ≤ 1) := by
  refine ⟨?_, ?_, publishJntsCmds_clears dT now s, ?_⟩
  · cases h : s.new_trajectory with
    | false => simp [publishJntsCmds, h]
    | true => simp [publishJntsCmds, h]
  · intro h
    simp [publishJntsCmds, h]
  · intro times
    cases times with
    | nil => simp [publishJntsCmdsAt]
    | cons t rest =>
      have hc := publishJntsCmdsAt_cleared dT rest (publishJntsCmds dT t s).1
        (publishJntsCmds_clears dT t s)
      simp only [publishJntsCmdsAt, hc, List.append_nil]
      cases (publishJntsCmds dT t s).2 <;> simp

/-- C9 at a state with the flag set and target (1, 1/2, 0): the call at time 5 publishes the
target with the computed time delta 1/100, and the calls at times 5, 6 and 7 publish at
most one message. -/
theorem publishJntsCmds_one_shot_witness :
    armedState.new_trajectory = true ∧
    (publishJntsCmds (fun _ => 1 / 100) 5 armedState).2 = some ⟨5, 1 / 100, 1, 1 / 2, 0⟩ ∧
    (publishJntsCmdsAt (fun _ => 1 / 100) [5, 6, 7] armedState).2.length ≤ 1 :=
  have h := publishJntsCmds_one_shot (fun _ => 1 / 100) 5 armedState
  ⟨rfl, h.2.1 rfl, h.2.2.2 [5, 6, 7]⟩

end Gui2IwsNode

/-- The rational `sqrt` is never negative. -/
theorem sqrtQ_nonneg (x : ℚ) : 0 ≤ sqrtQ x := by
  unfold sqrtQ
  split_ifs
  · exact le_refl 0
  · positivity

namespace Gui2IwsNode

/-- C10: with speed = sqrt(vx^2 + vy^2), for a `sqrt` that is never negative,
`callbackOdometry` leaves the three entries of `bodyStateNow_` as they were when
speed < 0.1, and otherwise sets the speed entry to speed, the curvature entry to
-w / speed and the heading-offset entry to atan2(vy, vx) - M_PI / 2. -/
theorem callbackOdometry_bodyStateNow (m : Libm) (odom_ : Odometry) (s : State)
    (hsqrt : ∀ x, 0 ≤ m.sqrt x) :
    (m.sqrt (odom_.linear_x ^ 2 + odom_.linear_y ^ 2) < 0.1 →
      (callbackOdometry m odom_ s).bodyStateNow_.v = s.bodyStateNow_.v ∧
      (callbackOdometry m odom_ s).bodyStateNow_.rho = s.bodyStateNow_.rho ∧
      (callbackOdometry m odom_ s).bodyStateNow_.phi = s.bodyStateNow_.phi) ∧
    (¬ m.sqrt (odom_.linear_x ^ 2 + odom_.linear_y ^ 2) < 0.1 →
      (callbackOdometry m odom_ s).bodyStateNow_.v =
        m.sqrt (odom_.linear_x ^ 2 + odom_.linear_y ^ 2) ∧
      (callbackOdometry m odom_ s).bodyStateNow_.rho =
        -odom_.angular_z / m.sqrt (odom_.linear_x ^ 2 + odom_.linear_y ^ 2) ∧
      (callbackOdometry m odom_ s).bodyStateNow_.phi =
        m.atan2 odom_.linear_y odom_.linear_x - m.M_PI / 2) := by
  have hsq : odom_.linear_x ^ 2 + odom_.linear_y ^ 2 =
      odom_.linear_x * odom_.linear_x + odom_.linear_y * odom_.linear_y := by ring
  rw [hsq]
  have habs : |m.sqrt (odom_.linear_x * odom_.linear_x + odom_.linear_y * odom_.linear_y)| =
      m.sqrt (odom_.linear_x * odom_.linear_x + odom_.linear_y * odom_.linear_y) :=
    abs_of_nonneg (hsqrt _)
  constructor
  · intro h
    simp only [callbackOdometry, habs, if_pos h]
    exact ⟨trivial, trivial, trivial⟩
  · intro h
    simp only [callbackOdometry, habs, if_neg h]
    exact ⟨trivial, trivial, trivial⟩

/-- C10 at velocity (0, 1) and angular rate 1/2, with the rational `Libm`: the speed is 1,
the curvature -1/2 and the heading offset atan2(1, 0) - M_PI / 2 = 0. -/
theorem callbackOdometry_bodyStateNow_witness :
    (∀ x, 0 ≤ libmQ.sqrt x) ∧
    (callbackOdometry libmQ sidewaysOdometry armedState).bodyStateNow_.v = 1 ∧
    (callbackOdometry libmQ sidewaysOdometry armedState).bodyStateNow_.rho = -1 / 2 ∧
    (callbackOdometry libmQ sidewaysOdometry armedState).bodyStateNow_.phi = 0 := by
  have hsp : libmQ.sqrt (sidewaysOdometry.linear_x ^ 2 + sidewaysOdometry.linear_y ^ 2) = 1 := by
    simp [libmQ, sqrtQ, sidewaysOdometry]
  have h := (callbackOdometry_bodyStateNow libmQ sidewaysOdometry armedState sqrtQ_nonneg).2
    (by rw [hsp]; norm_num)
  rw [hsp] at h
  refine ⟨sqrtQ_nonneg, h.1, ?_, ?_⟩
  · rw [h.2.1]
    simp [sidewaysOdometry]
    norm_num
  · rw [h.2.2]
    simp [libmQ, atan2Q, sidewaysOdometry]

end Gui2IwsNode

namespace Joy2Twist

/-- In a snapshot `buttonsOK` accepts that is read as dead-man pressed, `joy_cb` reads
`axes[axis_vy_discrete]`, whatever the index is. -/
theorem joy_cb_reads_vy_discrete (c : Config) (mem : Mem) (joy : Joy)
    (h : buttonsAt mem joy c.deadman_button ≠ 0) (hv : buttonsOK c joy = true) :
    Read.axes c.axis_vy_discrete ∈ joy_cb_reads c mem joy := by
  have hd : (buttonsAt mem joy c.deadman_button != 0) = true := by simpa using h
  simp [joy_cb_reads, hd, hv]

/-- The first read of `joy_cb` is `buttons[deadman_button]`, whatever the index is. -/
theorem joy_cb_reads_deadman (c : Config) (mem : Mem) (joy : Joy) :
    Read.buttons c.deadman_button ∈ joy_cb_reads c mem joy := by
  simp [joy_cb_reads]

/-- With the dead-man button and the three discrete axes configured, every read of `joy_cb`
in a snapshot `buttonsOK` accepts is in bounds. -/
theorem joy_cb_reads_inBounds (c : Config) (mem : Mem) (joy : Joy) (hc : c.wf)
    (hv : buttonsOK c joy = true) (h0 : 0 ≤ c.deadman_button)
    (hx : 0 ≤ c.axis_vx_discrete) (hy : 0 ≤ c.axis_vy_discrete)
    (hw : 0 ≤ c.axis_vw_discrete) :
    ∀ r ∈ joy_cb_reads c mem joy, r.inBounds joy := by
  obtain ⟨r1, r2, r3, r4, r5, r6, r7, r8⟩ := buttonsOK_eq_true c joy hc hv
  have b2 := r2 h0
  have b6 := r6 hx
  have b7 := r7 hy
  have b8 := r8 hw
  intro r hr
  simp only [joy_cb_reads, hv, Bool.not_true, Bool.false_eq_true, if_false, List.mem_append,
    List.mem_singleton, hx, hy, hw, if_true] at hr
  rcases hr with rfl | hr
  · exact b2
  · split_ifs at hr <;> simp at hr <;>
      (try rcases hr with hr | hr | hr | hr | hr | hr | hr | hr | hr | hr | hr) <;>
      (try subst hr) <;> first | exact b2 | exact b6 | exact b7 | exact b8 | exact r1 ‹_› | exact r3 ‹_› | exact r4 ‹_› | exact r5 ‹_›

/-- C11 fails on the code: the default configuration (`axis_vy_discrete` = -1) and a
snapshot with 8 axes and 11 buttons, dead-man pressed, pass `buttonsOK`, and `joy_cb` reads
`axes[-1]`, whatever memory holds (the reads are `buttons[5]`, `buttons[4]`, `axes[1]`,
`axes[3]`, `axes[7]`, `axes[-1]`, `axes[6]`); with the dead-man button disabled
(`deadman_button` = -1) the same snapshot passes `buttonsOK` and `joy_cb` reads
`buttons[-1]`. Neither read is in bounds. -/
theorem joy_cb_reads_out_of_bounds :
    (buttonsOK defaultConfig scenarioJoy = true ∧
      defaultConfig.axis_vy_discrete = -1 ∧
      (∀ mem : Mem, Read.axes (-1) ∈ joy_cb_reads defaultConfig mem scenarioJoy) ∧
      joy_cb_reads defaultConfig junk scenarioJoy =
        [Read.buttons 5, Read.buttons 4, Read.axes 1, Read.axes 3, Read.axes 7,
          Read.axes (-1), Read.axes 6] ∧
      ¬ (Read.axes (-1)).inBounds scenarioJoy) ∧
    (buttonsOK noDeadmanConfig scenarioJoy = true ∧
      noDeadmanConfig.deadman_button = -1 ∧
      (∀ mem : Mem, Read.buttons (-1) ∈ joy_cb_reads noDeadmanConfig mem scenarioJoy) ∧
      ¬ (Read.buttons (-1)).inBounds scenarioJoy) := by
  refine ⟨⟨by decide, rfl, fun mem => ?_, ?_, by decide⟩,
    ⟨by decide, rfl, fun mem => ?_, by decide⟩⟩
  · have h0 : buttonsAt mem scenarioJoy defaultConfig.deadman_button ≠ 0 := by
      rw [buttonsAt_inRange mem scenarioJoy (by decide)]
      decide
    exact joy_cb_reads_vy_discrete defaultConfig mem scenarioJoy h0 (by decide)
  · simp [joy_cb_reads, defaultConfig, junk, scenarioJoy, buttonsAt, axesAt, buttonsOK,
      toUnsigned]
    norm_num
  · exact joy_cb_reads_deadman noDeadmanConfig mem scenarioJoy

end Joy2Twist
